import Mathlib

/-!
Verification of the digispark IR keyboard decoder
(`digispark-ir-keyboard.ino`).

The development shallowly embeds the pulse-timing state machine
(`readIR`), the reset operation (`reset`), and the command dispatcher
(`DEFAULT_handleReceivedData`, the `loop` dispatch step) as pure Lean
functions over explicit state, and proves the testable properties of
the design about them.

Machine-integer conventions: `TS` (the `unsigned long` timestamp type)
is modelled as `Nat`; the `uint16` variable `delta` is modelled by
reducing the subtraction modulo 2^16; the `uint8` accumulator `data`
is kept below 256 by reducing the left shift modulo 2^8, and the
`uint8` counter `pulseNum` by reducing the increment modulo 2^8.
-/

/-- `#define MS 1000` (microseconds per millisecond). -/
def MS : Nat := 1000

/-- `#define US 1`. -/
def US : Nat := 1

/-- `#define TOLERANCE 20`. -/
def TOLERANCE : Nat := 20

/-- `#define PRESS_DELAY 200` (milliseconds). -/
def PRESS_DELAY : Nat := 200

/-- `#define VOL_UP 224`. -/
def VOL_UP : Nat := 224

/-- `#define VOL_DOWN 208`. -/
def VOL_DOWN : Nat := 208

/-- `#define MUTE 240`. -/
def MUTE : Nat := 240

/-- `#define STATE_NEED_START 0` (spec name: `AwaitingFirstEdge`). -/
def STATE_NEED_START : Nat := 0

/-- `#define STATE_NEED_START2 1` (spec name: `AwaitingStartConfirm`). -/
def STATE_NEED_START2 : Nat := 1

/-- `#define STATE_DATA 2` (spec name: `ReceivingData`). -/
def STATE_DATA : Nat := 2

/-- `#define STATE_DATA_READY 3` (spec name: `FrameReady`). -/
def STATE_DATA_READY : Nat := 3

/-- The decoder's mutable globals: `volatile TS lastRead`,
`volatile uint8 pulseNum`, `volatile uint8 data`,
`volatile uint8 state`. -/
structure IRState where
  lastRead : Nat
  pulseNum : Nat
  data : Nat
  state : Nat
  deriving DecidableEq, Repr

/-- `reset()`: `lastRead = 0; data = pulseNum = 0; state = STATE_NEED_START;`.
The `noInterrupts()/interrupts()` bracket is a concurrency artefact with no
sequential content. -/
def resetState : IRState :=
  { lastRead := 0, pulseNum := 0, data := 0, state := STATE_NEED_START }

/-- The bit classification of the `STATE_DATA` branch of `readIR`
(lines 207-216): `delta` strictly inside
`(1*MS + 500*US - TOLERANCE, 2*MS + 500*US + TOLERANCE)` is bit 1
(this test comes first), else strictly inside
`(1*MS - TOLERANCE, 1*MS + 500*US + TOLERANCE)` is bit 0, else the
pulse is irregular (`none`, triggering `reset`). -/
def classify (delta : Nat) : Option Nat :=
  if 1 * MS + 500 * US - TOLERANCE < delta ∧ delta < 2 * MS + 500 * US + TOLERANCE then
    some 1
  else if 1 * MS - TOLERANCE < delta ∧ delta < 1 * MS + 500 * US + TOLERANCE then
    some 0
  else
    none

/-- `readIR()`, the falling-edge interrupt handler, with the current
`micros()` value passed explicitly.  Faithful translation of
lines 150-244: the wraparound guard, the `uint16 delta` (truncated
modulo 2^16), the timeout reset, the four-state `switch`, and the final
`lastRead = now`. -/
def readIR (s : IRState) (now : Nat) : IRState :=
  if s.lastRead ≠ 0 ∧ now < s.lastRead then
    resetState
  else
    let delta := (now - s.lastRead) % 65536
    let s1 := if s.lastRead ≠ 0 ∧ 40 * MS < delta then resetState else s
    if s1.state = STATE_NEED_START then
      if s1.lastRead = 0 then
        { s1 with lastRead := now, state := STATE_NEED_START2 }
      else
        { s1 with lastRead := now }
    else if s1.state = STATE_NEED_START2 then
      if 7 * MS < delta ∧ delta < 11 * MS then
        { s1 with pulseNum := 0, state := STATE_DATA, lastRead := now }
      else
        resetState
    else if s1.state = STATE_DATA then
      match classify delta with
      | none => resetState
      | some dataBit =>
          let d1 :=
            if 16 ≤ s1.pulseNum ∧ s1.pulseNum < 24 then
              if s1.pulseNum < 23 then ((s1.data ||| dataBit) <<< 1) % 256
              else s1.data ||| dataBit
            else s1.data
          let pn := (s1.pulseNum + 1) % 256
          { s1 with
            lastRead := now
            pulseNum := pn
            data := d1
            state := if 32 ≤ pn then STATE_DATA_READY else s1.state }
    else
      { s1 with lastRead := now }

/-- The three multimedia keys this firmware can press. -/
inductive MMKey where
  | volUp
  | volDown
  | mute
  deriving DecidableEq, Repr

/-- Observable actions of the dispatcher: a
`TrinketHidCombo.pressMultimediaKey` call, or a `reset()` call. -/
inductive Ev where
  | pressKey (k : MMKey)
  | reset
  deriving DecidableEq, Repr

/-- The `switch(data)` of `DEFAULT_handleReceivedData`
(lines 82-94): `VOL_UP`, `VOL_DOWN` and `MUTE` map to their keys,
everything else to the `default: return` branch. -/
def keyOf (data : Nat) : Option MMKey :=
  if data = VOL_UP then some MMKey.volUp
  else if data = VOL_DOWN then some MMKey.volDown
  else if data = MUTE then some MMKey.mute
  else none

/-- `DEFAULT_handleReceivedData()` (lines 67-97), with the `millis()`
value passed explicitly.  Returns the new `lastPress` together with the
list of key presses emitted (empty or a singleton). -/
def handleReceivedData (data lastPress now : Nat) : Nat × List Ev :=
  if lastPress ≠ 0 ∧ now < lastPress then
    (0, [])
  else if lastPress ≠ 0 ∧ now - lastPress < PRESS_DELAY then
    (lastPress, [])
  else
    match keyOf data with
    | some k => (now, [Ev.pressKey k])
    | none => (lastPress, [])

/-- The dispatch portion of `loop()` (lines 138-148): when
`state == STATE_DATA_READY`, call `handleReceivedData()` and then
`reset()`; otherwise do nothing.  The event list records the order of
the observable actions: presses emitted by `handleReceivedData` first,
then the `reset` call. -/
def loopStep (dec : IRState) (lastPress nowMs : Nat) : IRState × Nat × List Ev :=
  if dec.state = STATE_DATA_READY then
    let r := handleReceivedData dec.data lastPress nowMs
    (resetState, r.1, r.2 ++ [Ev.reset])
  else
    (dec, lastPress, [])

/-- Run the edge handler over a list of edge timestamps. -/
def runEdges (s : IRState) (ts : List Nat) : IRState :=
  ts.foldl readIR s

/-- Timestamps generated by successive inter-edge intervals starting
after time `t`. -/
def tsOf (t : Nat) : List Nat → List Nat
  | [] => []
  | d :: ds => (t + d) :: tsOf (t + d) ds

/-- Functional model of the `codeByte` accumulation of the
`STATE_DATA` branch: starting at pulse index `pn` with accumulator
`dat`, fold in a list of classified bits exactly as lines 221-227 do. -/
def accData : Nat → Nat → List Nat → Nat
  | _, dat, [] => dat
  | pn, dat, b :: bs =>
      accData (pn + 1)
        (if 16 ≤ pn ∧ pn < 24 then
          if pn < 23 then ((dat ||| b) <<< 1) % 256 else dat ||| b
        else dat) bs

/-- A list of bits read most-significant first. -/
def bitsToByte (bs : List Nat) : Nat :=
  bs.foldl (fun a b => 2 * a + b) 0

/-- Trace of the dispatcher: feed a list of `(codeByte, millis)` calls
through `handleReceivedData`, collecting the times of the accepted
(forwarded) commands. -/
def acceptedTimes : Nat → List (Nat × Nat) → List Nat
  | _, [] => []
  | lp, (d, t) :: rest =>
      let r := handleReceivedData d lp t
      if r.2 = [] then acceptedTimes r.1 rest
      else t :: acceptedTimes r.1 rest

/-! ## Helper lemmas -/

theorem lor_two_mul (a b : Nat) (hb : b ≤ 1) : (2 * a) ||| b = 2 * a + b := by
  interval_cases b
  · simp
  · apply Nat.eq_of_testBit_eq
    intro i
    have h2 : (2 * a + 1) / 2 = a := by omega
    have h3 : 2 * a / 2 = a := by omega
    cases i with
    | zero => simp [Nat.testBit_zero]; omega
    | succ n =>
        rw [Nat.testBit_lor, Nat.testBit_succ, Nat.testBit_succ, Nat.testBit_succ, h2, h3]
        norm_num

theorem classify_bounds {d b : Nat} (h : classify d = some b) :
    980 < d ∧ d < 2520 ∧ b ≤ 1 := by
  unfold classify at h
  simp only [MS, US, TOLERANCE] at h
  split at h
  · simp at h; omega
  · split at h
    · simp at h; omega
    · simp at h

theorem readIR_wrap (s : IRState) (now : Nat) (h0 : s.lastRead ≠ 0)
    (h1 : now < s.lastRead) : readIR s now = resetState := by
  simp [readIR, h0, h1]

theorem readIR_firstEdge (s : IRState) (now : Nat) (h0 : s.lastRead = 0)
    (hst : s.state = STATE_NEED_START) :
    readIR s now = { s with lastRead := now, state := STATE_NEED_START2 } := by
  have h1 : ¬ (s.lastRead ≠ 0 ∧ now < s.lastRead) := by omega
  have h2 : ¬ (s.lastRead ≠ 0 ∧ 40 * MS < (now - s.lastRead) % 65536) := by omega
  simp only [readIR, if_neg h1, if_neg h2]
  rw [if_pos (by rw [hst]), if_pos h0]

theorem readIR_timeout (s : IRState) (now : Nat) (h0 : s.lastRead ≠ 0)
    (hle : s.lastRead ≤ now) (hdel : 40 * MS < (now - s.lastRead) % 65536) :
    readIR s now =
      { lastRead := now, pulseNum := 0, data := 0, state := STATE_NEED_START2 } := by
  have h1 : ¬ (s.lastRead ≠ 0 ∧ now < s.lastRead) := by omega
  simp only [readIR, if_neg h1, if_pos (And.intro h0 hdel)]
  rw [if_pos (by rfl), if_pos (by rfl)]
  rfl

theorem readIR_startConfirm_ok (s : IRState) (now : Nat)
    (hst : s.state = STATE_NEED_START2) (hle : s.lastRead ≤ now)
    (hwin : 7 * MS < (now - s.lastRead) % 65536 ∧ (now - s.lastRead) % 65536 < 11 * MS) :
    readIR s now = { s with pulseNum := 0, state := STATE_DATA, lastRead := now } := by
  have h1 : ¬ (s.lastRead ≠ 0 ∧ now < s.lastRead) := by omega
  have h2 : ¬ (s.lastRead ≠ 0 ∧ 40 * MS < (now - s.lastRead) % 65536) := by
    simp only [MS] at hwin ⊢; omega
  simp only [readIR, if_neg h1, if_neg h2]
  rw [if_neg (by simp [hst, STATE_NEED_START2, STATE_NEED_START]),
      if_pos (by rw [hst]), if_pos hwin]

theorem readIR_startConfirm_fail (s : IRState) (now : Nat)
    (hst : s.state = STATE_NEED_START2) (hle : s.lastRead ≤ now)
    (hdel : (now - s.lastRead) % 65536 ≤ 40 * MS)
    (hwin : ¬ (7 * MS < (now - s.lastRead) % 65536 ∧ (now - s.lastRead) % 65536 < 11 * MS)) :
    readIR s now = resetState := by
  have h1 : ¬ (s.lastRead ≠ 0 ∧ now < s.lastRead) := by omega
  have h2 : ¬ (s.lastRead ≠ 0 ∧ 40 * MS < (now - s.lastRead) % 65536) := by omega
  simp only [readIR, if_neg h1, if_neg h2]
  rw [if_neg (by simp [hst, STATE_NEED_START2, STATE_NEED_START]),
      if_pos (by rw [hst]), if_neg hwin]

theorem readIR_data_some (s : IRState) (now : Nat) (b : Nat)
    (hst : s.state = STATE_DATA) (hle : s.lastRead ≤ now)
    (hcl : classify ((now - s.lastRead) % 65536) = some b) :
    readIR s now =
      { s with
        lastRead := now
        pulseNum := (s.pulseNum + 1) % 256
        data :=
          if 16 ≤ s.pulseNum ∧ s.pulseNum < 24 then
            if s.pulseNum < 23 then ((s.data ||| b) <<< 1) % 256 else s.data ||| b
          else s.data
        state := if 32 ≤ (s.pulseNum + 1) % 256 then STATE_DATA_READY else s.state } := by
  have hb := classify_bounds hcl
  have h1 : ¬ (s.lastRead ≠ 0 ∧ now < s.lastRead) := by omega
  have h2 : ¬ (s.lastRead ≠ 0 ∧ 40 * MS < (now - s.lastRead) % 65536) := by
    simp only [MS]; omega
  simp only [readIR, if_neg h1, if_neg h2]
  rw [if_neg (by simp [hst, STATE_DATA, STATE_NEED_START]),
      if_neg (by simp [hst, STATE_DATA, STATE_NEED_START2]),
      if_pos (by rw [hst]), hcl]

theorem readIR_data_none (s : IRState) (now : Nat)
    (hst : s.state = STATE_DATA) (hle : s.lastRead ≤ now)
    (hdel : (now - s.lastRead) % 65536 ≤ 40 * MS)
    (hcl : classify ((now - s.lastRead) % 65536) = none) :
    readIR s now = resetState := by
  have h1 : ¬ (s.lastRead ≠ 0 ∧ now < s.lastRead) := by omega
  have h2 : ¬ (s.lastRead ≠ 0 ∧ 40 * MS < (now - s.lastRead) % 65536) := by omega
  simp only [readIR, if_neg h1, if_neg h2]
  rw [if_neg (by simp [hst, STATE_DATA, STATE_NEED_START]),
      if_neg (by simp [hst, STATE_DATA, STATE_NEED_START2]),
      if_pos (by rw [hst]), hcl]

theorem readIR_ready_ignore (s : IRState) (now : Nat)
    (hst : s.state = STATE_DATA_READY) (hle : s.lastRead ≤ now)
    (hdel : (now - s.lastRead) % 65536 ≤ 40 * MS) :
    readIR s now = { s with lastRead := now } := by
  have h1 : ¬ (s.lastRead ≠ 0 ∧ now < s.lastRead) := by omega
  have h2 : ¬ (s.lastRead ≠ 0 ∧ 40 * MS < (now - s.lastRead) % 65536) := by omega
  simp only [readIR, if_neg h1, if_neg h2]
  rw [if_neg (by simp [hst, STATE_DATA_READY, STATE_NEED_START]),
      if_neg (by simp [hst, STATE_DATA_READY, STATE_NEED_START2]),
      if_neg (by simp [hst, STATE_DATA_READY, STATE_DATA])]

theorem handleReceivedData_no_reset (d lp n : Nat) :
    Ev.reset ∉ (handleReceivedData d lp n).2 := by
  unfold handleReceivedData
  split
  · simp
  · split
    · simp
    · cases keyOf d <;> simp

/-! ## Claim theorems -/

/-- C8: if the recorded last-edge timestamp is non-empty and numerically
greater than the current time (clock wraparound), `readIR` performs a full
reset (timestamp cleared, buffer zeroed, state back to
`STATE_NEED_START`) and returns without classifying the interval. -/
theorem wraparound_full_reset (s : IRState) (now : Nat)
    (h0 : s.lastRead ≠ 0) (h1 : now < s.lastRead) :
    readIR s now = resetState :=
  readIR_wrap s now h0 h1

theorem wraparound_full_reset_witness :
    readIR { lastRead := 100, pulseNum := 3, data := 7, state := STATE_DATA } 50 =
      resetState :=
  wraparound_full_reset { lastRead := 100, pulseNum := 3, data := 7, state := STATE_DATA }
    50 (by decide) (by decide)

/-- C9: with `lastPress` at the zero sentinel (no prior accepted command),
`DEFAULT_handleReceivedData` forwards exactly one command for each of the
three recognized codes (`VOL_UP` 0xE0 → volume-up, `VOL_DOWN` 0xD0 →
volume-down, `MUTE` 0xF0 → mute), and silently drops every other code
byte, forwarding nothing. -/
theorem code_mapping (now d : Nat)
    (h1 : d ≠ VOL_UP) (h2 : d ≠ VOL_DOWN) (h3 : d ≠ MUTE) :
    handleReceivedData VOL_UP 0 now = (now, [Ev.pressKey MMKey.volUp]) ∧
    handleReceivedData VOL_DOWN 0 now = (now, [Ev.pressKey MMKey.volDown]) ∧
    handleReceivedData MUTE 0 now = (now, [Ev.pressKey MMKey.mute]) ∧
    handleReceivedData d 0 now = (0, []) := by
  have h1' : d ≠ 224 := by simpa [VOL_UP] using h1
  have h2' : d ≠ 208 := by simpa [VOL_DOWN] using h2
  have h3' : d ≠ 240 := by simpa [MUTE] using h3
  refine ⟨?_, ?_, ?_, ?_⟩ <;>
    simp [handleReceivedData, keyOf, VOL_UP, VOL_DOWN, MUTE, h1', h2', h3']

theorem code_mapping_witness :
    handleReceivedData VOL_UP 0 500 = (500, [Ev.pressKey MMKey.volUp]) ∧
    handleReceivedData VOL_DOWN 0 500 = (500, [Ev.pressKey MMKey.volDown]) ∧
    handleReceivedData MUTE 0 500 = (500, [Ev.pressKey MMKey.mute]) ∧
    handleReceivedData 7 0 500 = (0, []) :=
  code_mapping 500 7 (by decide) (by decide) (by decide)

/-- C10: an interval strictly between 1480 µs and 1520 µs lies in both
bit-classification windows, and `classify` returns bit 1 because the
bit-1 test is applied first. -/
theorem overlap_classified_bit1 (d : Nat)
    (h1 : 1 * MS + 500 * US - TOLERANCE < d)
    (h2 : d < 1 * MS + 500 * US + TOLERANCE) :
    classify d = some 1 ∧
    (1 * MS - TOLERANCE < d ∧ d < 1 * MS + 500 * US + TOLERANCE) ∧
    (1 * MS + 500 * US - TOLERANCE < d ∧ d < 2 * MS + 500 * US + TOLERANCE) := by
  simp only [MS, US, TOLERANCE] at h1 h2
  refine ⟨?_, by simp only [MS, US, TOLERANCE]; omega,
    by simp only [MS, US, TOLERANCE]; omega⟩
  simp only [classify, MS, US, TOLERANCE]
  rw [if_pos (by omega)]

theorem overlap_classified_bit1_witness :
    classify 1500 = some 1 ∧
    (1 * MS - TOLERANCE < 1500 ∧ 1500 < 1 * MS + 500 * US + TOLERANCE) ∧
    (1 * MS + 500 * US - TOLERANCE < 1500 ∧ 1500 < 2 * MS + 500 * US + TOLERANCE) :=
  overlap_classified_bit1 1500 (by decide) (by decide)

/-- C2 (code bug): an edge arriving 67 536 µs (&gt; 40 ms) after the
previous one is NOT reset away: `delta` is a `uint16`, so the elapsed
time truncates to 2 000 µs, escapes the timeout test, and the edge is
classified as data bit 1 (`pulseNum` advances 5 → 6, state remains
`STATE_DATA`); the claim (and the code's own `// timeout` intent)
requires a full reset here. -/
theorem timeout_truncation_eval :
    40 * MS < 68536 - 1000 ∧
    readIR { lastRead := 1000, pulseNum := 5, data := 0, state := STATE_DATA } 68536 =
      { lastRead := 68536, pulseNum := 6, data := 0, state := STATE_DATA } := by
  decide

/-- C3 (counterexample): with a completed frame (`codeByte` 0xE0) and no
debounce obstacle, the dispatcher's observable actions are the key press
FIRST and the `reset()` call SECOND — `reset` does not precede command
processing as the claim states. -/
theorem dispatch_order_counterexample :
    (loopStep { lastRead := 5000, pulseNum := 32, data := 224, state := STATE_DATA_READY }
        0 1000).2.2 = [Ev.pressKey MMKey.volUp, Ev.reset] ∧
    (loopStep { lastRead := 5000, pulseNum := 32, data := 224, state := STATE_DATA_READY }
        0 1000).2.2.head? = some (Ev.pressKey MMKey.volUp) := by
  decide

/-- C3 (amended): when the dispatcher observes `STATE_DATA_READY` it runs
`handleReceivedData` first — reading `codeByte` and possibly forwarding
the command — and only then invokes `reset()`; the reset is nevertheless
unconditional (it follows every `FrameReady` observation, whether the
command was forwarded, debounced away, or unrecognized), and
`handleReceivedData` itself never resets the decoder. -/
theorem dispatch_then_reset (dec : IRState) (lp nowMs : Nat)
    (h : dec.state = STATE_DATA_READY) :
    (loopStep dec lp nowMs).1 = resetState ∧
    (loopStep dec lp nowMs).2.1 = (handleReceivedData dec.data lp nowMs).1 ∧
    (loopStep dec lp nowMs).2.2 = (handleReceivedData dec.data lp nowMs).2 ++ [Ev.reset] ∧
    Ev.reset ∉ (handleReceivedData dec.data lp nowMs).2 := by
  refine ⟨by simp [loopStep, h], by simp [loopStep, h], by simp [loopStep, h],
    handleReceivedData_no_reset _ _ _⟩

theorem dispatch_then_reset_witness :
    (loopStep { lastRead := 5000, pulseNum := 32, data := 208, state := STATE_DATA_READY }
        0 1000).1 = resetState ∧
    (loopStep { lastRead := 5000, pulseNum := 32, data := 208, state := STATE_DATA_READY }
        0 1000).2.1 = (handleReceivedData 208 0 1000).1 ∧
    (loopStep { lastRead := 5000, pulseNum := 32, data := 208, state := STATE_DATA_READY }
        0 1000).2.2 = (handleReceivedData 208 0 1000).2 ++ [Ev.reset] ∧
    Ev.reset ∉ (handleReceivedData 208 0 1000).2 :=
  dispatch_then_reset { lastRead := 5000, pulseNum := 32, data := 208, state := STATE_DATA_READY }
    0 1000 (by decide)

/-- C4 (counterexample): in `STATE_NEED_START2` with a computed interval
of 50 000 µs — outside the (7 ms, 11 ms) start window — the decoder does
NOT end in `STATE_NEED_START`: the 40 ms timeout path resets and then
immediately records the triggering edge as a fresh first edge, ending in
`STATE_NEED_START2` with `lastRead` not cleared. -/
theorem start_confirm_counterexample :
    ¬ (7 * MS < (51000 - 1000) % 65536 ∧ (51000 - 1000) % 65536 < 11 * MS) ∧
    readIR { lastRead := 1000, pulseNum := 0, data := 0, state := STATE_NEED_START2 } 51000 =
      { lastRead := 51000, pulseNum := 0, data := 0, state := STATE_NEED_START2 } ∧
    STATE_NEED_START2 ≠ STATE_NEED_START := by
  decide

/-- C4 (amended): in `STATE_NEED_START2`, a computed delta strictly inside
(7 ms, 11 ms) zeroes `pulseNum` and moves to `STATE_DATA`; a delta outside
the window but at most 40 ms yields the full reset
(`STATE_NEED_START`, `pulseNum` 0, `lastRead` 0); a delta above 40 ms
also fully resets but then re-arms with the triggering edge as a fresh
first edge, ending in `STATE_NEED_START2` with `pulseNum` 0. -/
theorem start_confirm_window (s : IRState) (now : Nat)
    (hst : s.state = STATE_NEED_START2) (h0 : s.lastRead ≠ 0) (hle : s.lastRead ≤ now) :
    (7 * MS < (now - s.lastRead) % 65536 ∧ (now - s.lastRead) % 65536 < 11 * MS →
      readIR s now = { s with pulseNum := 0, state := STATE_DATA, lastRead := now }) ∧
    (¬ (7 * MS < (now - s.lastRead) % 65536 ∧ (now - s.lastRead) % 65536 < 11 * MS) →
      (now - s.lastRead) % 65536 ≤ 40 * MS → readIR s now = resetState) ∧
    (40 * MS < (now - s.lastRead) % 65536 →
      readIR s now =
        { lastRead := now, pulseNum := 0, data := 0, state := STATE_NEED_START2 }) :=
  ⟨fun hwin => readIR_startConfirm_ok s now hst hle hwin,
   fun hwin hdel => readIR_startConfirm_fail s now hst hle hdel hwin,
   fun hdel => readIR_timeout s now h0 hle hdel⟩

theorem start_confirm_window_witness :
    (7 * MS < (10000 - 1000) % 65536 ∧ (10000 - 1000) % 65536 < 11 * MS →
      readIR { lastRead := 1000, pulseNum := 0, data := 0, state := STATE_NEED_START2 } 10000 =
        { lastRead := 10000, pulseNum := 0, data := 0, state := STATE_DATA }) ∧
    (¬ (7 * MS < (10000 - 1000) % 65536 ∧ (10000 - 1000) % 65536 < 11 * MS) →
      (10000 - 1000) % 65536 ≤ 40 * MS →
      readIR { lastRead := 1000, pulseNum := 0, data := 0, state := STATE_NEED_START2 } 10000 =
        resetState) ∧
    (40 * MS < (10000 - 1000) % 65536 →
      readIR { lastRead := 1000, pulseNum := 0, data := 0, state := STATE_NEED_START2 } 10000 =
        { lastRead := 10000, pulseNum := 0, data := 0, state := STATE_NEED_START2 }) :=
  start_confirm_window { lastRead := 1000, pulseNum := 0, data := 0, state := STATE_NEED_START2 }
    10000 (by decide) (by decide) (by decide)

/-- C6 (counterexample): in `STATE_DATA`, an interval of 50 000 µs is
outside both bit windows, yet after it the NEXT edge is consumed as a
start-confirm candidate (the run ends in `STATE_DATA`), not recorded as
a fresh first edge (which would end in `STATE_NEED_START2`): the
triggering edge itself, not the next one, became the fresh first edge. -/
theorem data_phase_counterexample :
    classify ((51000 - 1000) % 65536) = none ∧
    runEdges { lastRead := 1000, pulseNum := 20, data := 5, state := STATE_DATA }
        [51000, 60000] =
      { lastRead := 60000, pulseNum := 0, data := 0, state := STATE_DATA } ∧
    STATE_DATA ≠ STATE_NEED_START2 := by
  decide

/-- C6 (amended): in `STATE_DATA`, an interval outside both
bit-classification windows and at most 40 ms causes the full reset, and
the next edge is then recorded as a fresh first edge (moving to
`STATE_NEED_START2`); an out-of-window interval above 40 ms also fully
resets, but the triggering edge itself is immediately recorded as the
fresh first edge. -/
theorem data_phase_reset (s : IRState) (now t : Nat)
    (hst : s.state = STATE_DATA) (h0 : s.lastRead ≠ 0) (hle : s.lastRead ≤ now)
    (hcl : classify ((now - s.lastRead) % 65536) = none) :
    ((now - s.lastRead) % 65536 ≤ 40 * MS →
      readIR s now = resetState ∧
      readIR (readIR s now) t =
        { lastRead := t, pulseNum := 0, data := 0, state := STATE_NEED_START2 }) ∧
    (40 * MS < (now - s.lastRead) % 65536 →
      readIR s now =
        { lastRead := now, pulseNum := 0, data := 0, state := STATE_NEED_START2 }) := by
  constructor
  · intro hdel
    have hr := readIR_data_none s now hst hle hdel hcl
    refine ⟨hr, ?_⟩
    rw [hr, readIR_firstEdge resetState t rfl rfl]
    rfl
  · intro hdel
    exact readIR_timeout s now h0 hle hdel

theorem data_phase_reset_witness :
    (((4000 : Nat) - 1000) % 65536 ≤ 40 * MS →
      readIR { lastRead := 1000, pulseNum := 20, data := 5, state := STATE_DATA } 4000 =
        resetState ∧
      readIR (readIR { lastRead := 1000, pulseNum := 20, data := 5, state := STATE_DATA } 4000)
          9000 =
        { lastRead := 9000, pulseNum := 0, data := 0, state := STATE_NEED_START2 }) ∧
    (40 * MS < ((4000 : Nat) - 1000) % 65536 →
      readIR { lastRead := 1000, pulseNum := 20, data := 5, state := STATE_DATA } 4000 =
        { lastRead := 4000, pulseNum := 0, data := 0, state := STATE_NEED_START2 }) :=
  data_phase_reset { lastRead := 1000, pulseNum := 20, data := 5, state := STATE_DATA }
    4000 9000 (by decide) (by decide) (by decide) (by decide)

/-- C7 (counterexample): in `STATE_DATA_READY` an edge arriving 50 ms
after the last one is NOT ignored: the timeout path zeroes the completed
`codeByte` (224 → 0) and `pulseNum` (32 → 0) and moves the machine to
`STATE_NEED_START2`, so a straggling edge can destroy an unconsumed
frame. -/
theorem frameready_counterexample :
    readIR { lastRead := 1000, pulseNum := 32, data := 224, state := STATE_DATA_READY }
        51000 =
      { lastRead := 51000, pulseNum := 0, data := 0, state := STATE_NEED_START2 } ∧
    (224 ≠ 0 ∧ STATE_NEED_START2 ≠ STATE_DATA_READY) := by
  decide

/-- C7 (amended): in `STATE_DATA_READY`, an edge with no wraparound and a
computed delta of at most 40 ms is ignored except for updating
`lastRead` (`codeByte`, `pulseNum` and the state are unchanged); but a
wraparound edge fully resets the machine, and an edge with delta above
40 ms resets it and re-arms with the edge as a fresh first edge — in
both of those cases the completed frame is discarded before
consumption. -/
theorem frameready_ignore_guarded (s : IRState) (now : Nat)
    (hst : s.state = STATE_DATA_READY) (h0 : s.lastRead ≠ 0) :
    (s.lastRead ≤ now → (now - s.lastRead) % 65536 ≤ 40 * MS →
      readIR s now = { s with lastRead := now }) ∧
    (now < s.lastRead → readIR s now = resetState) ∧
    (s.lastRead ≤ now → 40 * MS < (now - s.lastRead) % 65536 →
      readIR s now =
        { lastRead := now, pulseNum := 0, data := 0, state := STATE_NEED_START2 }) :=
  ⟨fun hle hdel => readIR_ready_ignore s now hst hle hdel,
   fun hlt => readIR_wrap s now h0 hlt,
   fun hle hdel => readIR_timeout s now h0 hle hdel⟩

theorem frameready_ignore_guarded_witness :
    ((1000 : Nat) ≤ 3000 → ((3000 : Nat) - 1000) % 65536 ≤ 40 * MS →
      readIR { lastRead := 1000, pulseNum := 32, data := 224, state := STATE_DATA_READY }
          3000 =
        { lastRead := 3000, pulseNum := 32, data := 224, state := STATE_DATA_READY }) ∧
    ((3000 : Nat) < 1000 →
      readIR { lastRead := 1000, pulseNum := 32, data := 224, state := STATE_DATA_READY }
          3000 = resetState) ∧
    ((1000 : Nat) ≤ 3000 → 40 * MS < ((3000 : Nat) - 1000) % 65536 →
      readIR { lastRead := 1000, pulseNum := 32, data := 224, state := STATE_DATA_READY }
          3000 =
        { lastRead := 3000, pulseNum := 0, data := 0, state := STATE_NEED_START2 }) :=
  frameready_ignore_guarded
    { lastRead := 1000, pulseNum := 32, data := 224, state := STATE_DATA_READY }
    3000 (by decide) (by decide)

theorem hrd_drop_debounce (d lp t : Nat) (h1 : lp ≤ t) (h2 : lp ≠ 0)
    (h3 : t - lp < PRESS_DELAY) : handleReceivedData d lp t = (lp, []) := by
  unfold handleReceivedData
  rw [if_neg (by omega), if_pos (And.intro h2 h3)]

theorem hrd_drop_unknown (d lp t : Nat) (h1 : lp ≤ t)
    (h2 : ¬ (lp ≠ 0 ∧ t - lp < PRESS_DELAY)) (hk : keyOf d = none) :
    handleReceivedData d lp t = (lp, []) := by
  unfold handleReceivedData
  rw [if_neg (by omega), if_neg h2, hk]

theorem hrd_accept (d lp t : Nat) (k : MMKey) (h1 : lp ≤ t)
    (h2 : ¬ (lp ≠ 0 ∧ t - lp < PRESS_DELAY)) (hk : keyOf d = some k) :
    handleReceivedData d lp t = (t, [Ev.pressKey k]) := by
  unfold handleReceivedData
  rw [if_neg (by omega), if_neg h2, hk]

theorem acceptedTimes_cons (lp d t : Nat) (rest : List (Nat × Nat)) :
    acceptedTimes lp ((d, t) :: rest) =
      if (handleReceivedData d lp t).2 = [] then
        acceptedTimes (handleReceivedData d lp t).1 rest
      else t :: acceptedTimes (handleReceivedData d lp t).1 rest := rfl

theorem acceptedTimes_spec (calls : List (Nat × Nat)) :
    ∀ lp : Nat,
      List.Pairwise (fun p q : Nat × Nat => p.2 ≤ q.2) calls →
      (∀ p ∈ calls, lp ≤ p.2 ∧ 0 < p.2) →
      List.Chain' (fun a b => a + PRESS_DELAY ≤ b) (acceptedTimes lp calls) ∧
      (lp ≠ 0 → ∀ a ∈ acceptedTimes lp calls, lp + PRESS_DELAY ≤ a) := by
  induction calls with
  | nil =>
      intro lp _ _
      exact ⟨List.chain'_nil, fun _ a ha => absurd ha (List.not_mem_nil a)⟩
  | cons c rest ih =>
      obtain ⟨d, t⟩ := c
      intro lp hpw hbound
      have hlt : lp ≤ t := (hbound (d, t) (List.mem_cons_self _ _)).1
      have htpos : 0 < t := (hbound (d, t) (List.mem_cons_self _ _)).2
      have hrest_t : ∀ p ∈ rest, t ≤ p.2 := (List.pairwise_cons.mp hpw).1
      have hpw' : List.Pairwise (fun p q : Nat × Nat => p.2 ≤ q.2) rest :=
        (List.pairwise_cons.mp hpw).2
      have hbound_rest : ∀ p ∈ rest, t ≤ p.2 ∧ 0 < p.2 := by
        intro p hp
        exact ⟨hrest_t p hp, (hbound p (List.mem_cons_of_mem _ hp)).2⟩
      by_cases hdeb : lp ≠ 0 ∧ t - lp < PRESS_DELAY
      · -- dropped by debounce: lastPress is left alone
        have hr := hrd_drop_debounce d lp t hlt hdeb.1 hdeb.2
        rw [acceptedTimes_cons, hr]
        simp only [if_pos rfl]
        have hbr : ∀ p ∈ rest, lp ≤ p.2 ∧ 0 < p.2 := by
          intro p hp
          exact ⟨le_trans hlt (hrest_t p hp), (hbound p (List.mem_cons_of_mem _ hp)).2⟩
        exact ih lp hpw' hbr
      · cases hk : keyOf d with
        | none =>
            have hr := hrd_drop_unknown d lp t hlt hdeb hk
            rw [acceptedTimes_cons, hr]
            simp only [if_pos rfl]
            have hbr : ∀ p ∈ rest, lp ≤ p.2 ∧ 0 < p.2 := by
              intro p hp
              exact ⟨le_trans hlt (hrest_t p hp), (hbound p (List.mem_cons_of_mem _ hp)).2⟩
            exact ih lp hpw' hbr
        | some k =>
            have hr := hrd_accept d lp t k hlt hdeb hk
            rw [acceptedTimes_cons, hr]
            rw [if_neg (List.cons_ne_nil _ _)]
            have hih := ih t hpw' hbound_rest
            constructor
            · rw [List.chain'_cons']
              refine ⟨?_, hih.1⟩
              intro y hy
              exact hih.2 (by omega) y (List.mem_of_mem_head? hy)
            · intro hlp0 a ha
              rcases List.mem_cons.mp ha with rfl | ha'
              · omega
              · have := hih.2 (by omega) a ha'
                omega

/-- C5 (counterexample): a command accepted at `millis() == 0` sets
`lastPress` to 0 — the "none yet" sentinel — so a second command only
10 ms later is also forwarded: two commands with a wall-clock gap far
below the 200 ms minimum repeat interval. -/
theorem debounce_counterexample :
    acceptedTimes 0 [(224, 0), (224, 10)] = [0, 10] ∧ 10 - 0 < PRESS_DELAY := by
  decide

/-- C5 (amended): provided every dispatcher invocation happens at a
nonzero wall-clock time (true except at the instant the millisecond
counter reads exactly 0), any two consecutively accepted commands are at
least `PRESS_DELAY` = 200 ms apart; and a command arriving less than
200 ms after the last accepted one is dropped without updating
`lastPress`. -/
theorem debounce_min_gap (calls : List (Nat × Nat))
    (hmono : List.Pairwise (fun p q : Nat × Nat => p.2 ≤ q.2) calls)
    (hpos : ∀ p ∈ calls, 0 < p.2) :
    List.Chain' (fun a b => a + PRESS_DELAY ≤ b) (acceptedTimes 0 calls) ∧
    (∀ d lp now : Nat, lp ≠ 0 → lp ≤ now → now - lp < PRESS_DELAY →
      handleReceivedData d lp now = (lp, [])) :=
  ⟨(acceptedTimes_spec calls 0 hmono
      (fun p hp => ⟨Nat.zero_le _, hpos p hp⟩)).1,
   fun d lp now h1 h2 h3 => hrd_drop_debounce d lp now h2 h1 h3⟩

theorem debounce_min_gap_witness :
    List.Chain' (fun a b => a + PRESS_DELAY ≤ b)
      (acceptedTimes 0 [(224, 1000), (224, 1100), (208, 1300)]) ∧
    (∀ d lp now : Nat, lp ≠ 0 → lp ≤ now → now - lp < PRESS_DELAY →
      handleReceivedData d lp now = (lp, [])) :=
  debounce_min_gap [(224, 1000), (224, 1100), (208, 1300)] (by decide) (by decide)

theorem runEdges_cons (s : IRState) (t : Nat) (ts : List Nat) :
    runEdges s (t :: ts) = runEdges (readIR s t) ts := rfl


theorem readIR_data_step (t pn dat now b : Nat) (hle : t ≤ now) (hpn : pn < 255)
    (hcl : classify ((now - t) % 65536) = some b) :
    readIR { lastRead := t, pulseNum := pn, data := dat, state := STATE_DATA } now =
      { lastRead := now
        pulseNum := pn + 1
        data :=
          if 16 ≤ pn ∧ pn < 24 then
            if pn < 23 then ((dat ||| b) <<< 1) % 256 else dat ||| b
          else dat
        state := if 32 ≤ pn + 1 then STATE_DATA_READY else STATE_DATA } := by
  have e : (pn + 1) % 256 = pn + 1 := Nat.mod_eq_of_lt (by omega)
  rw [readIR_data_some { lastRead := t, pulseNum := pn, data := dat, state := STATE_DATA }
    now b rfl hle hcl]
  simp only [e]

theorem runData (ds : List Nat) :
    ∀ t pn dat : Nat, 0 < t →
      (∀ d ∈ ds, (classify d).isSome) → pn + ds.length ≤ 32 → pn < 32 →
      runEdges { lastRead := t, pulseNum := pn, data := dat, state := STATE_DATA }
          (tsOf t ds) =
        { lastRead := t + ds.sum
          pulseNum := pn + ds.length
          data := accData pn dat (ds.map fun d => (classify d).getD 0)
          state := if pn + ds.length = 32 then STATE_DATA_READY else STATE_DATA } := by
  induction ds with
  | nil =>
      intro t pn dat ht _ hle hlt
      simp only [tsOf, runEdges, List.foldl_nil, List.map_nil, accData, List.sum_nil,
        Nat.add_zero, List.length_nil, IRState.mk.injEq]
      rw [if_neg (show ¬ pn = 32 by omega)]
      exact ⟨trivial, trivial, trivial, rfl⟩
  | cons d rest ih =>
      intro t pn dat ht hval hle hlt
      have hd : (classify d).isSome := hval d (List.mem_cons_self _ _)
      obtain ⟨b, hb⟩ := Option.isSome_iff_exists.mp hd
      have hbnd := classify_bounds hb
      have hdd : (t + d - t) % 65536 = d := by
        have h1 : t + d - t = d := by omega
        rw [h1]
        exact Nat.mod_eq_of_lt (by omega)
      have hcl : classify ((t + d - t) % 65536) = some b := by rw [hdd]; exact hb
      rw [tsOf, runEdges_cons,
        readIR_data_step t pn dat (t + d) b (by omega) (by omega) hcl]
      rcases Nat.lt_or_ge (pn + 1) 32 with h32 | h32
      · have hst : (if 32 ≤ pn + 1 then STATE_DATA_READY else STATE_DATA) = STATE_DATA :=
          if_neg (by omega)
        rw [hst, ih (t + d) (pn + 1) _ (by omega)
          (fun x hx => hval x (List.mem_cons_of_mem _ hx))
          (by simp only [List.length_cons] at hle; omega) h32]
        simp only [List.sum_cons, List.length_cons, List.map_cons, accData, hb,
          Option.getD_some, IRState.mk.injEq]
        refine ⟨by omega, by omega, ?_⟩
        have hc : pn + 1 + rest.length = pn + (rest.length + 1) := by omega
        rw [hc]
        exact ⟨trivial, rfl⟩
      · have h32' : pn + 1 = 32 := by
          simp only [List.length_cons] at hle; omega
        have hrest : rest = [] := by
          apply List.length_eq_zero.mp
          simp only [List.length_cons] at hle; omega
        subst hrest
        have hst :
            (if 32 ≤ pn + 1 then STATE_DATA_READY else STATE_DATA) = STATE_DATA_READY :=
          if_pos (by omega)
        rw [hst]
        simp only [tsOf, runEdges, List.foldl_nil, List.sum_cons, List.sum_nil,
          List.length_cons, List.length_nil, List.map_cons, List.map_nil, accData, hb,
          Option.getD_some, Nat.add_zero, Nat.zero_add, IRState.mk.injEq]
        rw [if_pos (show pn + 1 = 32 by omega)]
        exact ⟨trivial, trivial, trivial, rfl⟩

theorem accData_id (bs : List Nat) :
    ∀ pn dat : Nat, (∀ k, k < bs.length → pn + k < 16 ∨ 24 ≤ pn + k) →
      accData pn dat bs = dat := by
  induction bs with
  | nil => intro pn dat _; rfl
  | cons b rest ih =>
      intro pn dat h
      have h0 := h 0 (by simp)
      rw [accData, if_neg (by omega)]
      exact ih (pn + 1) dat (fun k hk => by
        have := h (k + 1) (by simp only [List.length_cons]; omega)
        omega)

theorem accData_append (xs ys : List Nat) :
    ∀ pn dat : Nat,
      accData pn dat (xs ++ ys) = accData (pn + xs.length) (accData pn dat xs) ys := by
  induction xs with
  | nil => intro pn dat; simp [accData]
  | cons x rest ih =>
      intro pn dat
      rw [List.cons_append, accData, accData, ih]
      have hc : pn + 1 + rest.length = pn + (rest.length + 1) := by omega
      rw [hc, List.length_cons]

theorem accData_mid (bs : List Nat) :
    ∀ pn a : Nat, bs ≠ [] → (∀ b ∈ bs, b ≤ 1) → 16 ≤ pn → pn + bs.length = 24 →
      a + 1 ≤ 2 ^ (pn - 16) →
      accData pn (2 * a) bs = bs.foldl (fun x b => 2 * x + b) a := by
  induction bs with
  | nil => intro pn a hne _ _ _ _; exact absurd rfl hne
  | cons b rest ih =>
      intro pn a _ hle h16 hlen hbound
      have hb : b ≤ 1 := hle b (List.mem_cons_self _ _)
      rcases List.eq_nil_or_concat rest with hrest | ⟨L, x, hcc⟩
      · subst hrest
        simp only [List.length_cons, List.length_nil] at hlen
        have hpn : pn = 23 := by omega
        subst hpn
        rw [accData, if_pos (by omega), if_neg (by omega), accData,
          lor_two_mul a b hb, List.foldl_cons, List.foldl_nil]
      · have hrne : rest ≠ [] := by
          rw [hcc]
          simp
        have hlen' : rest.length ≠ 0 := by
          intro h
          exact hrne (List.length_eq_zero.mp h)
        have hpn23 : pn < 23 := by
          simp only [List.length_cons] at hlen
          omega
        rw [accData, if_pos (by omega), if_pos hpn23, lor_two_mul a b hb]
        have hsmall : (2 * a + b) * 2 < 256 := by
          have hexp : 2 ^ (pn - 16) ≤ 2 ^ 6 :=
            Nat.pow_le_pow_right (by omega) (by omega)
          have : 2 ^ (6 : Nat) = 64 := by norm_num
          omega
        have hshift : (2 * a + b) <<< 1 % 256 = 2 * (2 * a + b) := by
          rw [Nat.shiftLeft_eq, pow_one, Nat.mod_eq_of_lt hsmall]
          omega
        rw [hshift, ih (pn + 1) (2 * a + b) hrne
          (fun x hx => hle x (List.mem_cons_of_mem _ hx)) (by omega)
          (by simp only [List.length_cons] at hlen; omega)
          (by
            have hstep : pn + 1 - 16 = (pn - 16) + 1 := by omega
            rw [hstep, pow_succ]
            omega),
          List.foldl_cons]

theorem accData_32 (bs : List Nat) (hlen : bs.length = 32) (hb : ∀ b ∈ bs, b ≤ 1) :
    accData 0 0 bs = bitsToByte ((bs.drop 16).take 8) := by
  have hpre : (bs.take 16).length = 16 := by simp [List.length_take, hlen]
  have hdrop : (bs.drop 16).length = 16 := by simp [List.length_drop, hlen]
  have hmid : ((bs.drop 16).take 8).length = 8 := by simp [List.length_take, hdrop]
  have hsplit : bs = bs.take 16 ++ ((bs.drop 16).take 8 ++ (bs.drop 16).drop 8) := by
    rw [List.take_append_drop, List.take_append_drop]
  have hmid_ne : (bs.drop 16).take 8 ≠ [] := by
    intro h
    rw [h] at hmid
    simp at hmid
  have hmid_bits : ∀ b ∈ (bs.drop 16).take 8, b ≤ 1 := by
    intro b hbm
    refine hb b ?_
    rw [hsplit]
    exact List.mem_append.mpr (Or.inr (List.mem_append.mpr (Or.inl hbm)))
  have hmid_acc : accData 16 0 ((bs.drop 16).take 8) =
      ((bs.drop 16).take 8).foldl (fun x b => 2 * x + b) 0 :=
    accData_mid ((bs.drop 16).take 8) 16 0 hmid_ne hmid_bits (le_refl 16)
      (by rw [hmid]) (by norm_num)
  conv_lhs => rw [hsplit]
  rw [accData_append, accData_id (bs.take 16) 0 0
        (fun k hk => by rw [hpre] at hk; omega),
      hpre, Nat.zero_add, accData_append, hmid, hmid_acc,
      accData_id ((bs.drop 16).drop 8) (16 + 8) _ (fun k _ => Or.inr (by omega))]
  rfl

theorem readIR_start_step (t pn dat now : Nat) (hle : t ≤ now)
    (hwin : 7 * MS < (now - t) % 65536 ∧ (now - t) % 65536 < 11 * MS) :
    readIR { lastRead := t, pulseNum := pn, data := dat, state := STATE_NEED_START2 }
        now =
      { lastRead := now, pulseNum := 0, data := dat, state := STATE_DATA } := by
  rw [readIR_startConfirm_ok
    { lastRead := t, pulseNum := pn, data := dat, state := STATE_NEED_START2 }
    now rfl hle hwin]

/-- C1: starting from the reset state, a first edge at `t0`, a
start-confirm interval `d0` strictly between 7 ms and 11 ms, and 32
subsequent data intervals each validly classified leave the decoder in
`STATE_DATA_READY` with `data` (the code byte) equal to the 8 bits
classified at pulse positions 16 through 23, in arrival order, most
significant bit first. -/
theorem frame_decode_correct (t0 d0 : Nat) (ds : List Nat)
    (h7 : 7 * MS < d0) (h11 : d0 < 11 * MS) (hlen : ds.length = 32)
    (hval : ∀ d ∈ ds, (classify d).isSome) :
    (runEdges resetState (t0 :: (t0 + d0) :: tsOf (t0 + d0) ds)).state =
      STATE_DATA_READY ∧
    (runEdges resetState (t0 :: (t0 + d0) :: tsOf (t0 + d0) ds)).data =
      bitsToByte (((ds.drop 16).take 8).map fun d => (classify d).getD 0) := by
  simp only [MS] at h7 h11
  have s1 : readIR resetState t0 =
      { lastRead := t0, pulseNum := 0, data := 0, state := STATE_NEED_START2 } := by
    rw [readIR_firstEdge resetState t0 rfl rfl]
    rfl
  have hdd0 : (t0 + d0 - t0) % 65536 = d0 := by
    have h1 : t0 + d0 - t0 = d0 := by omega
    rw [h1]
    exact Nat.mod_eq_of_lt (by omega)
  have s2 : readIR
      { lastRead := t0, pulseNum := 0, data := 0, state := STATE_NEED_START2 }
      (t0 + d0) =
      { lastRead := t0 + d0, pulseNum := 0, data := 0, state := STATE_DATA } :=
    readIR_start_step t0 0 0 (t0 + d0) (by omega)
      (by rw [hdd0]; exact ⟨by simpa [MS] using h7, by simpa [MS] using h11⟩)
  rw [runEdges_cons, s1, runEdges_cons, s2,
    runData ds (t0 + d0) 0 0 (by omega) hval (by omega) (by norm_num)]
  constructor
  · show (if 0 + ds.length = 32 then STATE_DATA_READY else STATE_DATA) =
      STATE_DATA_READY
    rw [if_pos (by omega)]
  · show accData 0 0 (ds.map fun d => (classify d).getD 0) = _
    rw [List.map_take, List.map_drop]
    refine accData_32 _ (by simp [hlen]) ?_
    intro b hbm
    rcases List.mem_map.mp hbm with ⟨d, hd, rfl⟩
    rcases Option.isSome_iff_exists.mp (hval d hd) with ⟨v, hv⟩
    rw [hv, Option.getD_some]
    exact (classify_bounds hv).2.2

/-- The 0xE0 frame of the end-to-end scenario: sixteen short (bit 0)
intervals for the discarded address field, the eight code bits
`11100000` (long intervals for the ones), then eight more short
intervals for the discarded inverted-check field. -/
def exampleDeltas : List Nat :=
  List.replicate 16 1200 ++ [2000, 2000, 2000, 1200, 1200, 1200, 1200, 1200] ++
    List.replicate 8 1200

theorem frame_decode_correct_witness :
    (runEdges resetState
        (100 :: (100 + 9000) :: tsOf (100 + 9000) exampleDeltas)).state =
      STATE_DATA_READY ∧
    (runEdges resetState
        (100 :: (100 + 9000) :: tsOf (100 + 9000) exampleDeltas)).data =
      bitsToByte (((exampleDeltas.drop 16).take 8).map fun d => (classify d).getD 0) :=
  frame_decode_correct 100 9000 exampleDeltas (by decide) (by decide) (by decide)
    (by decide)
